import Mathlib

/-
Shallow embedding of the microgreen grower portal backend
(src/microgreen-portal/microgreen-portal/backend/main.py).

Modelling conventions:
* The mutable module-level globals (inventory_items, inventory_logs,
  notifications, orders) together with the startup-read low-stock threshold
  form a ServerState value; every endpoint is a function from ServerState to
  a result paired with the successor state.  A FastAPI HTTPException is a
  value of HTTPError; since a raised exception aborts the request but keeps
  all global mutations already performed, endpoints return the state also in
  the error case.
* uuid4 draws are modelled by explicitly supplied fresh identifiers
  (a String argument, or a Nat-indexed stream for create_order which draws
  one uuid for the order and one per line).
* datetime fields (timestamps, harvest/order/pickup dates) carry no logic in
  the ledger and order code and are omitted from the records.  Dates in the
  forecast code are modelled as day numbers (Nat).
* Python ints are Int; Python floats produced by round(x, n) are modelled as
  rationals with round-half-to-even, matching Python semantics.
* send_email_notification only performs external I/O and is dropped; the
  in-app notifications list is the observable NotificationSink.
-/

namespace Microgreen

/-- A FastAPI HTTPException: status code and detail string. -/
structure HTTPError where
  status : Nat
  detail : String
deriving DecidableEq

/-- InventoryItem (an inventory batch).  harvestDate is omitted (no ledger
logic depends on it). -/
structure InventoryItem where
  id : String
  variety : String
  trayCount : Int
  weightKg : Option ℚ
  status : String
deriving DecidableEq

/-- InventoryLog (an adjustment-log entry).  The timestamp is omitted; log
order is list order, which is append order as in the source. -/
structure InventoryLog where
  itemId : String
  change : Int
  reason : String
  userId : String
deriving DecidableEq

/-- An in-app Notification (id, timestamp and is_read carry no logic used by
the claims and are omitted). -/
structure Notification where
  message : String
  type : String
deriving DecidableEq

/-- OrderItem: one line of an order. -/
structure OrderItem where
  id : String
  orderId : String
  inventoryItemId : String
  variety : String
  quantity : Int
  price_per_tray : Option ℚ
deriving DecidableEq

/-- Order.  customerContact, orderDate and pickupDate are omitted. -/
structure Order where
  id : String
  customerName : String
  status : String
  items : List OrderItem
  total_price : Option ℚ
deriving DecidableEq

/-- The global mutable server state plus the startup-read configuration value
low_stock_threshold (int(os.getenv("LOW_STOCK_THRESHOLD", 5))). -/
structure ServerState where
  inventory_items : List InventoryItem
  inventory_logs : List InventoryLog
  notifications : List Notification
  orders : List Order
  low_stock_threshold : Int
deriving DecidableEq

deriving instance DecidableEq for Except

/-- Python's next((i, x) for i, x in enumerate(l) if p x), None): the first
index satisfying p together with the element there. -/
def findWithIdx {α : Type} (p : α → Bool) : List α → Option (Nat × α)
  | [] => none
  | x :: xs => if p x then some (0, x) else (findWithIdx p xs).map (fun r => (r.1 + 1, r.2))

/-- Floor of a rational (den is always positive, so flooring division of num
by den is the floor). -/
def ratFloor (q : ℚ) : ℤ :=
  Int.fdiv q.num q.den

/-- Python round(x, ndigits): round half to even at the given decimal. -/
def pyRound (x : ℚ) (ndigits : Nat) : ℚ :=
  let m : ℚ := (10 : ℚ) ^ ndigits
  let y := x * m
  let f : ℤ := ratFloor y
  let r := y - f
  let n : ℤ :=
    if r < 1/2 then f
    else if 1/2 < r then f + 1
    else if f % 2 = 0 then f else f + 1
  (n : ℚ) / m

/-- Detail string of the 404 raised by adjust_inventory. -/
def adjustNotFoundDetail (item_id : String) : String :=
  "Inventory item " ++ item_id ++ " not found for adjustment"

/-- Detail string of the 400 raised by adjust_inventory when the adjustment
would drive the count negative. -/
def negativeDetail (item_id : String) (new_count : Int) (reason : String) : String :=
  "Adjustment for item " ++ item_id ++ " results in negative inventory (" ++
    toString new_count ++ ") for reason: " ++ reason

/-- Message of the low-stock alert notification. -/
def lowStockMsg (variety : String) (new_count : Int) : String :=
  "Low inventory: " ++ variety ++ " down to " ++ toString new_count ++ " trays"

/-- adjust_inventory(item_id, change, reason, user_id): the ledger's adjust
operation.  Looks up the batch, rejects an adjustment that would leave a
negative count (no partial write), otherwise writes the new count, appends a
log entry, and appends a low-stock alert exactly when change < 0 and the new
count is strictly below the threshold. -/
def adjust_inventory (st : ServerState) (item_id : String) (change : Int)
    (reason : String) (user_id : String) : Except HTTPError Unit × ServerState :=
  match findWithIdx (fun it => it.id == item_id) st.inventory_items with
  | none => (.error ⟨404, adjustNotFoundDetail item_id⟩, st)
  | some (index, item) =>
    let current_count := item.trayCount
    let new_count := current_count + change
    if new_count < 0 then
      (.error ⟨400, negativeDetail item_id new_count reason⟩, st)
    else
      let items' := st.inventory_items.set index { item with trayCount := new_count }
      let log_entry : InventoryLog :=
        { itemId := item_id, change := change, reason := reason, userId := user_id }
      let st' : ServerState :=
        { st with inventory_items := items', inventory_logs := st.inventory_logs ++ [log_entry] }
      if change < 0 ∧ new_count < st.low_stock_threshold then
        (.ok (), { st' with
          notifications := st'.notifications ++ [⟨lowStockMsg item.variety new_count, "alert"⟩] })
      else
        (.ok (), st')

/-- The allowed inventory statuses. -/
def allowedStatuses : List String := ["in-storage", "sold", "waste"]

/-- create_inventory_item (POST /inventory).  new_id is the uuid4 draw.  Note
the source appends the item dict (already carrying trayCount) and then calls
adjust_inventory with the same trayCount on top of it; the returned
InventoryItem is built from the same dict object that adjust_inventory
mutated, so it is read back from the final state here. -/
def create_inventory_item (st : ServerState) (item_data : InventoryItem) (new_id : String) :
    Except HTTPError InventoryItem × ServerState :=
  if item_data.trayCount < 0 then
    (.error ⟨400, "Tray count cannot be negative"⟩, st)
  else if allowedStatuses.contains item_data.status = false then
    (.error ⟨400, "Invalid status"⟩, st)
  else
    let item_dict := { item_data with id := new_id }
    let st1 := { st with inventory_items := st.inventory_items ++ [item_dict] }
    match adjust_inventory st1 new_id item_data.trayCount "Manual creation" "system" with
    | (.error e, st2) => (.error e, st2)
    | (.ok _, st2) =>
      match findWithIdx (fun it => it.id == new_id) st2.inventory_items with
      | some (_, itm) => (.ok itm, st2)
      | none => (.ok item_dict, st2)

/-- update_inventory_item (PUT /inventory/item_id).  The request model's
required pydantic fields (variety, trayCount, harvestDate, status) are always
present in update_data, weightKg is modelled as supplied, and id is not
supplied by the client, so the merged dict keeps the original id. -/
def update_inventory_item (st : ServerState) (item_id : String) (upd : InventoryItem) :
    Except HTTPError InventoryItem × ServerState :=
  match findWithIdx (fun it => it.id == item_id) st.inventory_items with
  | none => (.error ⟨404, "Inventory item not found"⟩, st)
  | some (index, original_item) =>
    if allowedStatuses.contains upd.status = false then
      (.error ⟨400, "Invalid status"⟩, st)
    else if upd.trayCount ≠ original_item.trayCount then
      (.error ⟨400, "Tray count must be updated via logs"⟩, st)
    else
      let updated := { original_item with
        variety := upd.variety, trayCount := upd.trayCount,
        weightKg := upd.weightKg, status := upd.status }
      (.ok updated, { st with inventory_items := st.inventory_items.set index updated })

/-- delete_inventory_item (DELETE /inventory/item_id): adjusts the batch to
zero with reason "Item deleted", then pops it from the list. -/
def delete_inventory_item (st : ServerState) (item_id : String) :
    Except HTTPError Unit × ServerState :=
  match findWithIdx (fun it => it.id == item_id) st.inventory_items with
  | none => (.error ⟨404, "Inventory item not found"⟩, st)
  | some (index, item) =>
    match adjust_inventory st item_id (-item.trayCount) "Item deleted" "system" with
    | (.error e, st') => (.error e, st')
    | (.ok _, st') => (.ok (), { st' with inventory_items := st'.inventory_items.eraseIdx index })

/-- get_inventory_item_logs (GET /inventory/item_id/logs): 404 unless an item
with that id is currently present, else the log entries for that item in
append order. -/
def get_inventory_item_logs (st : ServerState) (item_id : String) :
    Except HTTPError (List InventoryLog) :=
  if st.inventory_items.any (fun it => it.id == item_id) then
    .ok (st.inventory_logs.filter (fun lg => lg.itemId == item_id))
  else
    .error ⟨404, "Inventory item not found"⟩

/-- A sequence of adjust_inventory calls with swallowed exceptions (the
try/except-print loops used for order rollback and cancellation). -/
def bestEffortAdjust (st : ServerState) (pairs : List (String × Int)) (reason : String) :
    ServerState :=
  match pairs with
  | [] => st
  | (a, q) :: rest => bestEffortAdjust (adjust_inventory st a q reason "system").2 rest reason

/-- The per-line loop of create_order.  i is the 0-based loop counter, total
the accumulated price, processed the accumulated item dicts, adjs the list of
(inventoryItemId, quantity) debits already applied (in application order). -/
def create_order_loop (oid : String) (ids : Nat → String) (i : Nat) (total : ℚ)
    (processed : List OrderItem) (adjs : List (String × Int)) (st : ServerState) :
    List OrderItem → Except HTTPError (ℚ × List OrderItem) × ServerState
  | [] => (.ok (total, processed), st)
  | item :: rest =>
    match findWithIdx (fun inv => inv.id == item.inventoryItemId) st.inventory_items with
    | none =>
      (.error ⟨404, "Inventory item " ++ item.inventoryItemId ++ " for order item " ++
        toString (i + 1) ++ " not found"⟩, st)
    | some (_, inventory_item) =>
      if inventory_item.variety ≠ item.variety then
        (.error ⟨400, "Variety mismatch for inventory item " ++ item.inventoryItemId⟩, st)
      else
        match adjust_inventory st item.inventoryItemId (-item.quantity) ("Order " ++ oid) "system" with
        | (.error e, _) =>
          let strev := bestEffortAdjust st adjs ("Reverted failed order " ++ oid)
          (.error ⟨400, "Insufficient stock for " ++ item.variety ++ " (Item ID: " ++
            item.inventoryItemId ++ "): " ++ e.detail⟩, strev)
        | (.ok _, st') =>
          let price := item.price_per_tray.getD 10
          let item' := { item with orderId := oid, id := ids (i + 1), price_per_tray := some price }
          create_order_loop oid ids (i + 1) (total + item.quantity * price)
            (processed ++ [item']) (adjs ++ [(item.inventoryItemId, item.quantity)]) st' rest

/-- create_order (POST /orders).  ids models the uuid4 draws: ids 0 is the
order id, ids (i+1) the id of the i-th order item. -/
def create_order (st : ServerState) (order_data : Order) (ids : Nat → String) :
    Except HTTPError Order × ServerState :=
  let oid := ids 0
  match create_order_loop oid ids 0 0 [] [] st order_data.items with
  | (.error e, st') => (.error e, st')
  | (.ok (total, processed), st') =>
    let newOrd : Order := { order_data with
      id := oid, items := processed, total_price := some (pyRound total 2), status := "pending" }
    (.ok newOrd, { st' with orders := st'.orders ++ [newOrd] })

/-- The valid order statuses. -/
def validOrderStatuses : List String := ["pending", "confirmed", "completed", "cancelled"]

/-- update_order_status (PUT /orders/order_id).  Reverses each line's debit
(best effort) exactly when the new status is "cancelled" and the current one
is not, then writes the new status unconditionally. -/
def update_order_status (st : ServerState) (order_id : String) (status_val : String) :
    Except HTTPError Order × ServerState :=
  if validOrderStatuses.contains status_val = false then
    (.error ⟨400, "Invalid status"⟩, st)
  else
    match findWithIdx (fun o => o.id == order_id) st.orders with
    | none => (.error ⟨404, "Order not found"⟩, st)
    | some (index, ord) =>
      let st1 :=
        if status_val = "cancelled" ∧ ord.status ≠ "cancelled" then
          bestEffortAdjust st (ord.items.map fun it => (it.inventoryItemId, it.quantity))
            ("Order " ++ order_id ++ " cancelled")
        else st
      let newOrd := { ord with status := status_val }
      (.ok newOrd, { st1 with orders := st1.orders.set index newOrd })

/-- cancel_order (DELETE /orders/order_id): delegates to update_order_status
with status "cancelled", re-raising a 404 with detail "Order not found". -/
def cancel_order (st : ServerState) (order_id : String) : Except HTTPError Unit × ServerState :=
  match update_order_status st order_id "cancelled" with
  | (.error e, st') =>
    (.error (if e.status = 404 then ⟨404, "Order not found"⟩ else e), st')
  | (.ok _, st') => (.ok (), st')

/-- One point of a demand forecast (ForecastPoint). -/
structure ForecastPoint where
  date : Nat
  predictedTrays : ℚ
deriving DecidableEq

/-- A Forecast result; id and createdAt carry no logic and are omitted. -/
structure Forecast where
  periodStart : Nat
  periodEnd : Nat
  predictions : List ForecastPoint
deriving DecidableEq

/-- df["y"].mean() guarded by "if not df.empty else 0". -/
def histAvg (history : List (Nat × Int)) : ℚ :=
  if history.isEmpty then 0
  else ((history.map (fun p => (p.2 : ℚ))).sum) / (history.length : ℚ)

/-- The mask restricting oracle rows to start_date <= ds <= end_date. -/
def windowFilter (today weeks : Nat) (rows : List ForecastPoint) : List ForecastPoint :=
  rows.filter (fun p => decide (today ≤ p.date ∧ p.date ≤ today + weeks * 7))

/-- get_demand_forecast (GET /forecast).  The Prophet model is the external
oracle, taken as a parameter: it receives the historical series and the
horizon in days and yields its per-day rows, or none when fitting/predicting
raises.  Dates are day numbers; the cache key (today.isoformat() + weeks) is
the pair (today, weeks); the historical sales series (get_historical_sales
over the orders) is passed in directly.  Exactly as in the source, when fewer
than two history points exist, or the oracle fails, or the windowed rows are
empty, every day of the horizon gets the rounded historical mean. -/
def get_demand_forecast (oracle : List (Nat × Int) → Nat → Option (List ForecastPoint))
    (today : Nat) (weeks : Nat) (history : List (Nat × Int))
    (cache : List ((Nat × Nat) × Forecast)) : Forecast × List ((Nat × Nat) × Forecast) :=
  let start_date := today
  let end_date := today + weeks * 7
  match List.lookup (today, weeks) cache with
  | some f => (f, cache)
  | none =>
    let avg := histAvg history
    let fallback := (List.range (weeks * 7)).map
      (fun i => ForecastPoint.mk (start_date + i) (pyRound avg 1))
    let predictions :=
      if 2 ≤ history.length then
        match oracle history (weeks * 7) with
        | none => fallback
        | some rows =>
          let ps := (windowFilter today weeks rows).map
            (fun p => { p with predictedTrays := pyRound p.predictedTrays 1 })
          if ps.isEmpty then fallback else ps
      else fallback
    let result : Forecast :=
      { periodStart := start_date, periodEnd := end_date, predictions := predictions }
    (result, cache ++ [((today, weeks), result)])

/- ------------------------------------------------------------------
Pure helpers used to state and prove the ledger properties.
------------------------------------------------------------------ -/

/-- Add c to the tray count of the element at position i (identity when out of
range): the abstract effect of one successful adjustment on the item list. -/
def bump : List InventoryItem → Nat → Int → List InventoryItem
  | [], _, _ => []
  | x :: xs, 0, c => { x with trayCount := x.trayCount + c } :: xs
  | x :: xs, i + 1, c => x :: bump xs i c

/-- Add c to the tray count of the first item with the given id (identity when
absent). -/
def bumpById (l : List InventoryItem) (a : String) (c : Int) : List InventoryItem :=
  match findWithIdx (fun it => it.id == a) l with
  | some (i, _) => bump l i c
  | none => l

/-- Apply a sequence of id-keyed tray-count additions in order. -/
def bumpAll (pairs : List (String × Int)) (l : List InventoryItem) : List InventoryItem :=
  pairs.foldl (fun acc p => bumpById acc p.1 p.2) l

/-- Every batch's tray count is non-negative. -/
def AllNonNeg (l : List InventoryItem) : Prop := ∀ x ∈ l, 0 ≤ x.trayCount

instance (l : List InventoryItem) : Decidable (AllNonNeg l) :=
  List.decidableBAll _ l

/-- An order line references a currently existing batch whose variety matches
the line's stated variety. -/
def lineOk (l : List InventoryItem) (it : OrderItem) : Prop :=
  match findWithIdx (fun inv => inv.id == it.inventoryItemId) l with
  | some r => r.2.variety = it.variety
  | none => False

instance (l : List InventoryItem) (it : OrderItem) : Decidable (lineOk l it) :=
  match h : findWithIdx (fun inv => inv.id == it.inventoryItemId) l with
  | some r => decidable_of_iff (r.2.variety = it.variety) (by simp [lineOk, h])
  | none => isFalse (by simp [lineOk, h])

/-- One call to the ledger's adjust operation, for stating properties of
arbitrary call sequences. -/
structure AdjCall where
  item_id : String
  change : Int
  reason : String
  user_id : String

/-- Run a sequence of adjust_inventory calls, keeping the state whether each
call succeeds or raises. -/
def runAdjustments (st : ServerState) : List AdjCall → ServerState
  | [] => st
  | k :: rest => runAdjustments (adjust_inventory st k.item_id k.change k.reason k.user_id).2 rest

/- ------------------------------------------------------------------
Concrete states and requests used by witnesses and counterexamples.
------------------------------------------------------------------ -/

/-- An empty server state with the default threshold 5. -/
def cEmptySt : ServerState := ⟨[], [], [], [], 5⟩

/-- A creation request for a Sunflower batch of 3 trays. -/
def cItem3 : InventoryItem := ⟨"req-id", "Sunflower", 3, none, "in-storage"⟩

/-- Two batches: A (Pea, 3 trays) and B (Kale, 1 tray). -/
def cStAB : ServerState :=
  ⟨[⟨"A", "Pea", 3, none, "in-storage"⟩, ⟨"B", "Kale", 1, none, "in-storage"⟩], [], [], [], 5⟩

/-- Order request: 2 trays from A and 5 trays from B (insufficient). -/
def cOrdReq1 : Order :=
  ⟨"req", "Cust", "pending",
   [⟨"", "", "A", "Pea", 2, none⟩, ⟨"", "", "B", "Kale", 5, none⟩], none⟩

/-- Order request: 2 trays from A and 5 trays from the nonexistent batch ZZZ. -/
def cOrdReq2 : Order :=
  ⟨"req", "Cust", "pending",
   [⟨"", "", "A", "Pea", 2, none⟩, ⟨"", "", "ZZZ", "Kale", 5, none⟩], none⟩

/-- Order request with an empty line list. -/
def cOrdReqE : Order := ⟨"req", "Cust", "pending", [], none⟩

/-- A deterministic uuid stream. -/
def cIds : Nat → String := fun n => "O" ++ toString n

/-- A completed order for 2 trays of batch A. -/
def cCompletedOrder : Order := ⟨"O0", "Cust", "completed", [⟨"O1", "O0", "A", "Pea", 2, some 10⟩], some 20⟩

/-- A state holding batch A (3 trays) and the completed order above. -/
def cStOrd : ServerState := ⟨[⟨"A", "Pea", 3, none, "in-storage"⟩], [], [], [cCompletedOrder], 5⟩

/-- An already cancelled order for 2 trays of batch A. -/
def cCancelledOrder : Order := ⟨"O0", "Cust", "cancelled", [⟨"O1", "O0", "A", "Pea", 2, some 10⟩], some 20⟩

/-- A state holding batch A (3 trays) and the cancelled order above. -/
def cStCan : ServerState := ⟨[⟨"A", "Pea", 3, none, "in-storage"⟩], [], [], [cCancelledOrder], 5⟩

/-- A state with batch B1 (2 trays) and its creation log entry. -/
def cStDel : ServerState :=
  ⟨[⟨"B1", "Sunflower", 2, none, "in-storage"⟩], [⟨"B1", 2, "Manual creation", "system"⟩], [], [], 5⟩

/-- A state with batch A at 6 trays, threshold 5. -/
def cStLow : ServerState := ⟨[⟨"A", "Pea", 6, none, "in-storage"⟩], [], [], [], 5⟩

/-- An oracle that always fails. -/
def cOracleNone : List (Nat × Int) → Nat → Option (List ForecastPoint) := fun _ _ => none

/-- An update request keeping trayCount 3 but changing the other fields. -/
def cUpdItem : InventoryItem := ⟨"ignored", "Radish", 3, some 1, "sold"⟩

/-- An update request that tries to change trayCount from 3 to 4. -/
def cUpdItemBad : InventoryItem := ⟨"ignored", "Radish", 4, some 1, "sold"⟩

/- ------------------------------------------------------------------
Lemmas about findWithIdx.
------------------------------------------------------------------ -/

theorem findWithIdx_some_getElem {α : Type} (p : α → Bool) :
    ∀ (l : List α) (i : Nat) (x : α), findWithIdx p l = some (i, x) → l[i]? = some x := by
  intro l
  induction l with
  | nil => intro i x h; simp [findWithIdx] at h
  | cons y ys ih =>
    intro i x h
    rw [findWithIdx] at h
    by_cases hp : p y
    · rw [if_pos hp] at h
      injection h with h2
      injection h2 with hi hx
      subst hi; subst hx
      simp
    · rw [if_neg hp] at h
      rcases Option.map_eq_some'.mp h with ⟨⟨j, z⟩, hr, he⟩
      injection he with hi hx
      subst hi; subst hx
      simpa using ih j z hr

theorem findWithIdx_some_mem {α : Type} (p : α → Bool) (l : List α) (i : Nat) (x : α)
    (h : findWithIdx p l = some (i, x)) : x ∈ l :=
  List.getElem?_mem (findWithIdx_some_getElem p l i x h)

theorem findWithIdx_some_pred {α : Type} (p : α → Bool) :
    ∀ (l : List α) (i : Nat) (x : α), findWithIdx p l = some (i, x) → p x = true := by
  intro l
  induction l with
  | nil => intro i x h; simp [findWithIdx] at h
  | cons y ys ih =>
    intro i x h
    rw [findWithIdx] at h
    by_cases hp : p y
    · rw [if_pos hp] at h
      injection h with h2
      injection h2 with hi hx
      subst hx; exact hp
    · rw [if_neg hp] at h
      rcases Option.map_eq_some'.mp h with ⟨⟨j, z⟩, hr, he⟩
      injection he with hi hx
      subst hx; exact ih j z hr

theorem findWithIdx_none_iff {α : Type} (p : α → Bool) :
    ∀ (l : List α), findWithIdx p l = none ↔ ∀ x ∈ l, p x = false := by
  intro l
  induction l with
  | nil => simp [findWithIdx]
  | cons y ys ih =>
    by_cases hp : p y
    · simp [findWithIdx, hp]
    · simp [findWithIdx, hp, ih]

theorem set_of_getElem {α : Type} :
    ∀ (l : List α) (i : Nat) (x : α), l[i]? = some x → l.set i x = l := by
  intro l
  induction l with
  | nil => intro i x h; simp at h
  | cons y ys ih =>
    intro i x h
    cases i with
    | zero => simp at h; simp [h]
    | succ j =>
      simp at h
      simp [List.set, ih j x h]

theorem findWithIdx_set {α : Type} (p : α → Bool) :
    ∀ (l : List α) (i : Nat) (x y : α), findWithIdx p l = some (i, x) → p y = true →
      findWithIdx p (l.set i y) = some (i, y) := by
  intro l
  induction l with
  | nil => intro i x y h hy; simp [findWithIdx] at h
  | cons z zs ih =>
    intro i x y h hy
    rw [findWithIdx] at h
    by_cases hp : p z
    · rw [if_pos hp] at h
      injection h with h2
      injection h2 with hi hx
      subst hi
      simp [List.set, findWithIdx, hy]
    · rw [if_neg hp] at h
      rcases Option.map_eq_some'.mp h with ⟨⟨j, w⟩, hr, he⟩
      injection he with hi hx
      subst hi
      simp [List.set, findWithIdx, hp, ih j w y hr hy]

/- ------------------------------------------------------------------
Lemmas about bump.
------------------------------------------------------------------ -/

theorem set_eq_bump (p : InventoryItem → Bool) :
    ∀ (l : List InventoryItem) (i : Nat) (x : InventoryItem) (c : Int),
      findWithIdx p l = some (i, x) →
      l.set i { x with trayCount := x.trayCount + c } = bump l i c := by
  intro l
  induction l with
  | nil => intro i x c h; simp [findWithIdx] at h
  | cons y ys ih =>
    intro i x c h
    rw [findWithIdx] at h
    by_cases hp : p y
    · rw [if_pos hp] at h
      injection h with h2
      injection h2 with hi hx
      subst hi; subst hx
      simp [List.set, bump]
    · rw [if_neg hp] at h
      rcases Option.map_eq_some'.mp h with ⟨⟨j, w⟩, hr, he⟩
      injection he with hi hx
      subst hi; subst hx
      simp [List.set, bump, ih j w c hr]

theorem bump_comm :
    ∀ (l : List InventoryItem) (i j : Nat) (c d : Int),
      bump (bump l i c) j d = bump (bump l j d) i c := by
  intro l
  induction l with
  | nil => intro i j c d; simp [bump]
  | cons y ys ih =>
    intro i j c d
    cases i with
    | zero =>
      cases j with
      | zero => simp [bump]; omega
      | succ j2 => simp [bump]
    | succ i2 =>
      cases j with
      | zero => simp [bump]
      | succ j2 => simp [bump, ih]

theorem bump_add :
    ∀ (l : List InventoryItem) (i : Nat) (c d : Int),
      bump (bump l i c) i d = bump l i (c + d) := by
  intro l
  induction l with
  | nil => intro i c d; simp [bump]
  | cons y ys ih =>
    intro i c d
    cases i with
    | zero => simp [bump]; omega
    | succ i2 => simp [bump, ih]

theorem bump_zero :
    ∀ (l : List InventoryItem) (i : Nat), bump l i 0 = l := by
  intro l
  induction l with
  | nil => intro i; simp [bump]
  | cons y ys ih =>
    intro i
    cases i with
    | zero => simp [bump]
    | succ i2 => simp [bump, ih]

theorem findWithIdx_bump (a : String) :
    ∀ (l : List InventoryItem) (i : Nat) (c : Int),
      findWithIdx (fun it => it.id == a) (bump l i c) =
        (findWithIdx (fun it => it.id == a) l).map
          (fun r => (r.1, if r.1 = i then { r.2 with trayCount := r.2.trayCount + c } else r.2)) := by
  intro l
  induction l with
  | nil => intro i c; simp [findWithIdx, bump]
  | cons y ys ih =>
    intro i c
    cases i with
    | zero =>
      by_cases hp : y.id == a
      · simp [bump, findWithIdx, hp]
      · simp [bump, findWithIdx, hp]
        cases hr : findWithIdx (fun it => it.id == a) ys with
        | none => simp
        | some r => simp
    | succ i2 =>
      by_cases hp : y.id == a
      · simp [bump, findWithIdx, hp]
      · simp [bump, findWithIdx, hp, ih]
        cases hr : findWithIdx (fun it => it.id == a) ys with
        | none => simp
        | some r => simp [Function.comp]

/- ------------------------------------------------------------------
Lemmas about bumpById and bumpAll.
------------------------------------------------------------------ -/

theorem bumpById_of_none (l : List InventoryItem) (a : String) (c : Int)
    (h : findWithIdx (fun it => it.id == a) l = none) : bumpById l a c = l := by
  simp [bumpById, h]

theorem bumpById_of_some (l : List InventoryItem) (a : String) (c : Int) (i : Nat)
    (x : InventoryItem) (h : findWithIdx (fun it => it.id == a) l = some (i, x)) :
    bumpById l a c = bump l i c := by
  simp [bumpById, h]

theorem bumpById_comm (l : List InventoryItem) (a b : String) (c d : Int) :
    bumpById (bumpById l a c) b d = bumpById (bumpById l b d) a c := by
  cases ha : findWithIdx (fun it => it.id == a) l with
  | none =>
    rw [bumpById_of_none _ _ _ ha]
    cases hb : findWithIdx (fun it => it.id == b) l with
    | none => rw [bumpById_of_none _ _ _ hb, bumpById_of_none _ _ _ ha]
    | some rb =>
      obtain ⟨ib, xb⟩ := rb
      have ha2 : findWithIdx (fun it => it.id == a) (bump l ib d) = none := by
        rw [findWithIdx_bump, ha]; rfl
      rw [bumpById_of_some _ _ _ _ _ hb, bumpById_of_none _ _ _ ha2]
  | some ra =>
    obtain ⟨ia, xa⟩ := ra
    rw [bumpById_of_some _ _ _ _ _ ha]
    cases hb : findWithIdx (fun it => it.id == b) l with
    | none =>
      have hb2 : findWithIdx (fun it => it.id == b) (bump l ia c) = none := by
        rw [findWithIdx_bump, hb]; rfl
      rw [bumpById_of_none _ _ _ hb2, bumpById_of_none _ _ _ hb,
        bumpById_of_some _ _ _ _ _ ha]
    | some rb =>
      obtain ⟨ib, xb⟩ := rb
      have hb2 : findWithIdx (fun it => it.id == b) (bump l ia c) =
          some (ib, if ib = ia then { xb with trayCount := xb.trayCount + c } else xb) := by
        rw [findWithIdx_bump, hb]; rfl
      have ha2 : findWithIdx (fun it => it.id == a) (bump l ib d) =
          some (ia, if ia = ib then { xa with trayCount := xa.trayCount + d } else xa) := by
        rw [findWithIdx_bump, ha]; rfl
      rw [bumpById_of_some _ _ _ _ _ hb2, bumpById_of_some _ _ _ _ _ hb,
        bumpById_of_some _ _ _ _ _ ha2, bump_comm]

theorem bumpById_add (l : List InventoryItem) (a : String) (c d : Int) :
    bumpById (bumpById l a c) a d = bumpById l a (c + d) := by
  cases ha : findWithIdx (fun it => it.id == a) l with
  | none =>
    rw [bumpById_of_none _ _ _ ha, bumpById_of_none _ _ _ ha, bumpById_of_none _ _ _ ha]
  | some ra =>
    obtain ⟨ia, xa⟩ := ra
    have ha2 : findWithIdx (fun it => it.id == a) (bump l ia c) =
        some (ia, { xa with trayCount := xa.trayCount + c }) := by
      rw [findWithIdx_bump, ha]; simp
    rw [bumpById_of_some _ _ _ _ _ ha, bumpById_of_some _ _ _ _ _ ha2,
      bumpById_of_some _ _ _ _ _ ha, bump_add]

theorem bumpById_zero (l : List InventoryItem) (a : String) : bumpById l a 0 = l := by
  cases ha : findWithIdx (fun it => it.id == a) l with
  | none => rw [bumpById_of_none _ _ _ ha]
  | some ra => rw [bumpById_of_some _ _ _ _ _ ha, bump_zero]

theorem bumpAll_cons (p : String × Int) (ps : List (String × Int)) (l : List InventoryItem) :
    bumpAll (p :: ps) l = bumpAll ps (bumpById l p.1 p.2) := rfl

theorem bumpAll_append (ps qs : List (String × Int)) (l : List InventoryItem) :
    bumpAll (ps ++ qs) l = bumpAll qs (bumpAll ps l) := by
  simp [bumpAll, List.foldl_append]

theorem bumpById_bumpAll (ps : List (String × Int)) :
    ∀ (l : List InventoryItem) (a : String) (c : Int),
      bumpById (bumpAll ps l) a c = bumpAll ps (bumpById l a c) := by
  induction ps with
  | nil => intro l a c; rfl
  | cons p ps ih =>
    intro l a c
    rw [bumpAll_cons, bumpAll_cons, ih, bumpById_comm]

theorem bumpAll_cancel (ps : List (String × Int)) (l : List InventoryItem) (a : String) (q : Int) :
    bumpAll (ps ++ [(a, q)]) (bumpById l a (-q)) = bumpAll ps l := by
  rw [bumpAll_append]
  show bumpById (bumpAll ps (bumpById l a (-q))) a q = bumpAll ps l
  rw [bumpById_bumpAll, bumpById_add]
  rw [neg_add_cancel, bumpById_zero]

theorem lineOk_iff (l : List InventoryItem) (it : OrderItem) :
    lineOk l it ↔ ∃ i x, findWithIdx (fun inv => inv.id == it.inventoryItemId) l = some (i, x) ∧
      x.variety = it.variety := by
  unfold lineOk
  cases hf : findWithIdx (fun inv => inv.id == it.inventoryItemId) l with
  | none => simp
  | some rf =>
    obtain ⟨i, x⟩ := rf
    constructor
    · intro hv; exact ⟨i, x, rfl, hv⟩
    · rintro ⟨j, y, hxy, hv⟩
      injection hxy with h2
      injection h2 with hi hx2
      subst hx2
      exact hv

theorem lineOk_bumpById (l : List InventoryItem) (it : OrderItem) (a : String) (c : Int)
    (h : lineOk l it) : lineOk (bumpById l a c) it := by
  rcases (lineOk_iff l it).mp h with ⟨i, x, hf, hv⟩
  cases ha : findWithIdx (fun y => y.id == a) l with
  | none => rwa [bumpById_of_none _ _ _ ha]
  | some ra =>
    obtain ⟨ia, xa⟩ := ra
    rw [bumpById_of_some _ _ _ _ _ ha]
    refine (lineOk_iff _ it).mpr
      ⟨i, (if i = ia then { x with trayCount := x.trayCount + c } else x), ?_, ?_⟩
    · rw [findWithIdx_bump, hf]; rfl
    · by_cases h2 : i = ia <;> simp [h2, hv]

theorem AllNonNeg_bump :
    ∀ (l : List InventoryItem) (i : Nat) (x : InventoryItem) (c : Int),
      AllNonNeg l → l[i]? = some x → 0 ≤ x.trayCount + c → AllNonNeg (bump l i c) := by
  intro l
  induction l with
  | nil => intro i x c hnn hg hc; intro z hz; simp [bump] at hz
  | cons y ys ih =>
    intro i x c hnn hg hc
    cases i with
    | zero =>
      simp at hg
      subst hg
      intro z hz
      rw [bump] at hz
      rcases List.mem_cons.mp hz with h | h
      · subst h; simpa using hc
      · exact hnn z (List.mem_cons_of_mem _ h)
    | succ j =>
      simp at hg
      intro z hz
      rw [bump] at hz
      rcases List.mem_cons.mp hz with h | h
      · subst h; exact hnn _ (List.mem_cons_self _ _)
      · exact ih j x c (fun w hw => hnn w (List.mem_cons_of_mem _ hw)) hg hc z h

/- ------------------------------------------------------------------
Characterization of adjust_inventory.
------------------------------------------------------------------ -/

theorem adjust_of_notFound (st : ServerState) (a : String) (c : Int) (r u : String)
    (h : findWithIdx (fun it => it.id == a) st.inventory_items = none) :
    adjust_inventory st a c r u = (.error ⟨404, adjustNotFoundDetail a⟩, st) := by
  unfold adjust_inventory
  rw [h]

theorem adjust_of_neg (st : ServerState) (a : String) (c : Int) (r u : String)
    (i : Nat) (x : InventoryItem)
    (h : findWithIdx (fun it => it.id == a) st.inventory_items = some (i, x))
    (hneg : x.trayCount + c < 0) :
    adjust_inventory st a c r u = (.error ⟨400, negativeDetail a (x.trayCount + c) r⟩, st) := by
  unfold adjust_inventory
  rw [h]
  simp only [if_pos hneg]

theorem adjust_of_ok (st : ServerState) (a : String) (c : Int) (r u : String)
    (i : Nat) (x : InventoryItem)
    (h : findWithIdx (fun it => it.id == a) st.inventory_items = some (i, x))
    (hok : 0 ≤ x.trayCount + c) :
    adjust_inventory st a c r u =
      (.ok (), { st with
        inventory_items := bump st.inventory_items i c,
        inventory_logs := st.inventory_logs ++ [⟨a, c, r, u⟩],
        notifications := st.notifications ++
          (if c < 0 ∧ x.trayCount + c < st.low_stock_threshold
           then [⟨lowStockMsg x.variety (x.trayCount + c), "alert"⟩] else []) }) := by
  unfold adjust_inventory
  rw [h]
  dsimp only
  rw [if_neg (show ¬ x.trayCount + c < 0 by omega)]
  rw [set_eq_bump _ _ _ _ _ h]
  by_cases hn : c < 0 ∧ x.trayCount + c < st.low_stock_threshold
  · rw [if_pos hn, if_pos hn]
  · rw [if_neg hn, if_neg hn]
    simp

theorem adjust_orders (st : ServerState) (a : String) (c : Int) (r u : String) :
    (adjust_inventory st a c r u).2.orders = st.orders := by
  cases h : findWithIdx (fun it => it.id == a) st.inventory_items with
  | none => rw [adjust_of_notFound st a c r u h]
  | some ri =>
    obtain ⟨i, x⟩ := ri
    by_cases hneg : x.trayCount + c < 0
    · rw [adjust_of_neg st a c r u i x h hneg]
    · rw [adjust_of_ok st a c r u i x h (by omega)]

theorem adjust_error_state (st : ServerState) (a : String) (c : Int) (r u : String)
    (e : HTTPError) (he : (adjust_inventory st a c r u).1 = .error e) :
    (adjust_inventory st a c r u).2 = st := by
  cases h : findWithIdx (fun it => it.id == a) st.inventory_items with
  | none => rw [adjust_of_notFound st a c r u h]
  | some ri =>
    obtain ⟨i, x⟩ := ri
    by_cases hneg : x.trayCount + c < 0
    · rw [adjust_of_neg st a c r u i x h hneg]
    · rw [adjust_of_ok st a c r u i x h (by omega)] at he
      simp at he

theorem adjust_nonneg (st : ServerState) (a : String) (c : Int) (r u : String)
    (hnn : AllNonNeg st.inventory_items) :
    AllNonNeg (adjust_inventory st a c r u).2.inventory_items := by
  cases h : findWithIdx (fun it => it.id == a) st.inventory_items with
  | none => rw [adjust_of_notFound st a c r u h]; exact hnn
  | some ri =>
    obtain ⟨i, x⟩ := ri
    by_cases hneg : x.trayCount + c < 0
    · rw [adjust_of_neg st a c r u i x h hneg]; exact hnn
    · rw [adjust_of_ok st a c r u i x h (by omega)]
      exact AllNonNeg_bump st.inventory_items i x c hnn
        (findWithIdx_some_getElem _ _ _ _ h) (by omega)

theorem adjust_items_bumpById (st : ServerState) (a : String) (q : Int) (r u : String)
    (hnn : AllNonNeg st.inventory_items) (hq : 0 ≤ q) :
    (adjust_inventory st a q r u).2.inventory_items = bumpById st.inventory_items a q := by
  cases h : findWithIdx (fun it => it.id == a) st.inventory_items with
  | none => rw [adjust_of_notFound st a q r u h, bumpById_of_none _ _ _ h]
  | some ri =>
    obtain ⟨i, x⟩ := ri
    have hx : 0 ≤ x.trayCount := hnn x (findWithIdx_some_mem _ _ _ _ h)
    rw [adjust_of_ok st a q r u i x h (by omega), bumpById_of_some _ _ _ _ _ h]

/- ------------------------------------------------------------------
Characterization of bestEffortAdjust and runAdjustments.
------------------------------------------------------------------ -/

theorem bestEffort_spec :
    ∀ (pairs : List (String × Int)) (st : ServerState) (reason : String),
      AllNonNeg st.inventory_items → (∀ p ∈ pairs, 0 ≤ p.2) →
      (bestEffortAdjust st pairs reason).inventory_items = bumpAll pairs st.inventory_items ∧
      (bestEffortAdjust st pairs reason).orders = st.orders ∧
      AllNonNeg (bestEffortAdjust st pairs reason).inventory_items := by
  intro pairs
  induction pairs with
  | nil => intro st reason hnn hq; exact ⟨rfl, rfl, hnn⟩
  | cons p ps ih =>
    intro st reason hnn hq
    obtain ⟨a, q⟩ := p
    have hq0 : 0 ≤ q := hq (a, q) (by simp)
    have hitems := adjust_items_bumpById st a q reason "system" hnn hq0
    have hords := adjust_orders st a q reason "system"
    have hnn2 := adjust_nonneg st a q reason "system" hnn
    have IH := ih (adjust_inventory st a q reason "system").2 reason hnn2
      (fun p hp => hq p (by simp [hp]))
    rw [bestEffortAdjust]
    refine ⟨?_, ?_, IH.2.2⟩
    · rw [IH.1, hitems, bumpAll_cons]
    · rw [IH.2.1, hords]

theorem runAdjustments_nonneg :
    ∀ (calls : List AdjCall) (st : ServerState), AllNonNeg st.inventory_items →
      AllNonNeg (runAdjustments st calls).inventory_items := by
  intro calls
  induction calls with
  | nil => intro st hnn; exact hnn
  | cons k rest ih =>
    intro st hnn
    rw [runAdjustments]
    exact ih _ (adjust_nonneg st k.item_id k.change k.reason k.user_id hnn)

/- ------------------------------------------------------------------
The create_order loop: error cases restore the inventory when every line is
well formed (non-negative quantity, existing batch with matching variety).
------------------------------------------------------------------ -/

theorem create_order_loop_error (oid : String) (ids : Nat → String) :
    ∀ (rest : List OrderItem) (st : ServerState) (adjs : List (String × Int)) (i : Nat)
      (total : ℚ) (processed : List OrderItem) (e : HTTPError) (st_f : ServerState),
      AllNonNeg st.inventory_items →
      (∀ p ∈ adjs, 0 ≤ p.2) →
      (∀ it ∈ rest, 0 ≤ it.quantity ∧ lineOk st.inventory_items it) →
      create_order_loop oid ids i total processed adjs st rest = (.error e, st_f) →
      st_f.inventory_items = bumpAll adjs st.inventory_items ∧
      st_f.orders = st.orders ∧
      e.status = 400 ∧ (∃ s, e.detail = "Insufficient stock for " ++ s) := by
  intro rest
  induction rest with
  | nil =>
    intro st adjs i total processed e st_f hnn hadj hline h
    rw [create_order_loop] at h
    simp at h
  | cons item rest2 ih =>
    intro st adjs i total processed e st_f hnn hadj hline h
    have hitem := hline item (by simp)
    rcases (lineOk_iff _ _).mp hitem.2 with ⟨j, x, hf, hv⟩
    rw [create_order_loop] at h
    rw [hf] at h
    dsimp only at h
    rw [if_neg (show ¬ x.variety ≠ item.variety from fun hne => hne hv)] at h
    by_cases hneg : x.trayCount + (-item.quantity) < 0
    · rw [adjust_of_neg st item.inventoryItemId (-item.quantity) ("Order " ++ oid) "system"
        j x hf hneg] at h
      dsimp only at h
      injection h with h1 h2
      injection h1 with he
      subst he
      subst h2
      have hbe := bestEffort_spec adjs st ("Reverted failed order " ++ oid) hnn hadj
      exact ⟨hbe.1, hbe.2.1, rfl, ⟨_, rfl⟩⟩
    · rw [adjust_of_ok st item.inventoryItemId (-item.quantity) ("Order " ++ oid) "system"
        j x hf (by omega)] at h
      dsimp only at h
      have hbump : bump st.inventory_items j (-item.quantity) =
          bumpById st.inventory_items item.inventoryItemId (-item.quantity) :=
        (bumpById_of_some _ _ _ _ _ hf).symm
      have hnn2 : AllNonNeg (bump st.inventory_items j (-item.quantity)) :=
        AllNonNeg_bump st.inventory_items j x (-item.quantity) hnn
          (findWithIdx_some_getElem _ _ _ _ hf) (by omega)
      have IH := ih _ (adjs ++ [(item.inventoryItemId, item.quantity)]) (i + 1) _ _ e st_f
        hnn2
        (by
          intro p hp
          rcases List.mem_append.mp hp with hp1 | hp2
          · exact hadj p hp1
          · simp at hp2
            rw [hp2]
            exact hitem.1)
        (by
          intro it hit
          refine ⟨(hline it (by simp [hit])).1, ?_⟩
          have hlo := (hline it (by simp [hit])).2
          show lineOk (bump st.inventory_items j (-item.quantity)) it
          rw [hbump]
          exact lineOk_bumpById _ _ _ _ hlo)
        h
      refine ⟨?_, ?_, IH.2.2⟩
      · rw [IH.1]
        show bumpAll (adjs ++ [(item.inventoryItemId, item.quantity)])
          (bump st.inventory_items j (-item.quantity)) = bumpAll adjs st.inventory_items
        rw [hbump, bumpAll_cancel]
      · rw [IH.2.1]

/- ------------------------------------------------------------------
Remaining helper lemmas.
------------------------------------------------------------------ -/

theorem ratFloor_zero : ratFloor 0 = 0 := rfl

theorem pyRound_zero (n : Nat) : pyRound 0 n = 0 := by
  unfold pyRound
  norm_num [ratFloor_zero]

theorem bestEffort_orders :
    ∀ (pairs : List (String × Int)) (st : ServerState) (reason : String),
      (bestEffortAdjust st pairs reason).orders = st.orders := by
  intro pairs
  induction pairs with
  | nil => intro st reason; rfl
  | cons p ps ih =>
    intro st reason
    obtain ⟨a, q⟩ := p
    rw [bestEffortAdjust, ih, adjust_orders]

theorem lookup_append_none {β : Type} (a : Nat × Nat) :
    ∀ (l l2 : List ((Nat × Nat) × β)),
      List.lookup a l = none → List.lookup a (l ++ l2) = List.lookup a l2 := by
  intro l
  induction l with
  | nil => intro l2 h; rfl
  | cons p ps ih =>
    intro l2 h
    obtain ⟨k, b⟩ := p
    by_cases hk : a == k
    · simp [List.lookup, hk] at h
    · simp only [List.cons_append, List.lookup, hk] at h ⊢
      exact ih l2 h

/- ------------------------------------------------------------------
Claim theorems.
------------------------------------------------------------------ -/

/-- Claim C1: the conservation law (trayCount equals the sum of the logged
deltas, and createBatch with n trays yields trayCount n with a single log
entry of delta n) is violated by the code at batch creation:
create_inventory_item appends the item already carrying trayCount 3 and then
adjusts it by a further +3 on top, so the stored count is 6 while the only
log entry has delta 3 — the stored count is twice the requested one and
differs from the logged-delta sum. -/
theorem create_inventory_item_double_counts :
    ((create_inventory_item cEmptySt cItem3 "B1").2.inventory_items.map
      (fun it => (it.id, it.trayCount))) = [("B1", 6)] ∧
    ((create_inventory_item cEmptySt cItem3 "B1").2.inventory_logs.map
      (fun lg => (lg.itemId, lg.change))) = [("B1", 3)] ∧
    (((create_inventory_item cEmptySt cItem3 "B1").2.inventory_logs.filter
      (fun lg => lg.itemId == "B1")).map (fun lg => lg.change)).sum = 3 ∧
    (6 : Int) ≠ 3 := by
  exact ⟨by decide, by decide, by decide, by decide⟩

/-- Claim C3: for an existing batch, adjust fails with the InvalidAdjustment
error exactly when currentCount + delta is negative, the state is unchanged
on that failure, and no sequence of adjust calls starting from a non-negative
state ever leaves any trayCount negative. -/
theorem adjust_inventory_guard (st : ServerState) (a : String) (c : Int) (r u : String)
    (hnn : AllNonNeg st.inventory_items) :
    (∀ i x, findWithIdx (fun it => it.id == a) st.inventory_items = some (i, x) →
      (((adjust_inventory st a c r u).1 =
          .error ⟨400, negativeDetail a (x.trayCount + c) r⟩) ↔ x.trayCount + c < 0) ∧
      (x.trayCount + c < 0 → (adjust_inventory st a c r u).2 = st)) ∧
    (∀ calls : List AdjCall, AllNonNeg (runAdjustments st calls).inventory_items) := by
  constructor
  · intro i x h
    constructor
    · constructor
      · intro herr
        by_contra hpos
        rw [adjust_of_ok st a c r u i x h (by omega)] at herr
        simp at herr
      · intro hneg
        rw [adjust_of_neg st a c r u i x h hneg]
    · intro hneg
      rw [adjust_of_neg st a c r u i x h hneg]
  · intro calls
    exact runAdjustments_nonneg calls st hnn

/-- Witness for C3 at a concrete state: batch A holds 6 trays; an adjustment
of -7 fails with the exact InvalidAdjustment error and leaves the state
unchanged, and a two-call sequence keeps all counts non-negative. -/
theorem adjust_inventory_guard_witness :
    (((adjust_inventory cStLow "A" (-7) "r" "system").1 =
        .error ⟨400, negativeDetail "A" (6 + (-7)) "r"⟩) ↔ (6 : Int) + (-7) < 0) ∧
    ((6 : Int) + (-7) < 0 → (adjust_inventory cStLow "A" (-7) "r" "system").2 = cStLow) ∧
    AllNonNeg (runAdjustments cStLow
      [⟨"A", -7, "r", "system"⟩, ⟨"A", -2, "s", "u"⟩]).inventory_items := by
  have T := adjust_inventory_guard cStLow "A" (-7) "r" "system" (by decide)
  have h1 := T.1 0 ⟨"A", "Pea", 6, none, "in-storage"⟩ (by decide)
  exact ⟨h1.1, h1.2, T.2 _⟩

/-- Claim C7: a successful adjustment emits a low-stock alert exactly when
the delta is negative and the new count is strictly below the configured
threshold, and then exactly one alert is appended; otherwise none is. -/
theorem adjust_low_stock_alert (st : ServerState) (a : String) (c : Int) (r u : String)
    (i : Nat) (x : InventoryItem)
    (hf : findWithIdx (fun it => it.id == a) st.inventory_items = some (i, x))
    (hok : 0 ≤ x.trayCount + c) :
    (adjust_inventory st a c r u).1 = .ok () ∧
    (adjust_inventory st a c r u).2.notifications = st.notifications ++
      (if c < 0 ∧ x.trayCount + c < st.low_stock_threshold
       then [⟨lowStockMsg x.variety (x.trayCount + c), "alert"⟩] else []) := by
  rw [adjust_of_ok st a c r u i x hf hok]
  exact ⟨rfl, rfl⟩

/-- Witness for C7 at the spec's own boundary example: threshold 5, batch A at
6 trays; a -2 adjustment (landing at 4, below 5) appends exactly one alert,
while a -1 adjustment (landing exactly on 5) and a +1 adjustment append
none. -/
theorem adjust_low_stock_alert_witness :
    (adjust_inventory cStLow "A" (-2) "r" "system").2.notifications =
      [⟨lowStockMsg "Pea" 4, "alert"⟩] ∧
    (adjust_inventory cStLow "A" (-1) "r" "system").2.notifications = [] ∧
    (adjust_inventory cStLow "A" 1 "r" "system").2.notifications = [] := by
  have T1 := adjust_low_stock_alert cStLow "A" (-2) "r" "system" 0
    ⟨"A", "Pea", 6, none, "in-storage"⟩ (by decide) (by decide)
  have T2 := adjust_low_stock_alert cStLow "A" (-1) "r" "system" 0
    ⟨"A", "Pea", 6, none, "in-storage"⟩ (by decide) (by decide)
  have T3 := adjust_low_stock_alert cStLow "A" 1 "r" "system" 0
    ⟨"A", "Pea", 6, none, "in-storage"⟩ (by decide) (by decide)
  refine ⟨?_, ?_, ?_⟩
  · rw [T1.2]; rfl
  · rw [T2.2]; rfl
  · rw [T3.2]; rfl

/-- Counterexample to claim C2 as stated: batch A holds 3 trays; an order
requesting 2 from A and 5 from the nonexistent batch ZZZ fails with a plain
404 (the not-found check precedes the try/except that performs rollback), and
A's already-applied debit is NOT reversed: its count stays at 1 instead of
returning to 3, though the order is still not persisted. -/
theorem create_order_notFound_no_rollback :
    (create_order cStAB cOrdReq2 cIds).1 =
      .error ⟨404, "Inventory item ZZZ for order item 2 not found"⟩ ∧
    (create_order cStAB cOrdReq2 cIds).2.inventory_items.map (fun x => x.trayCount) = [1, 1] ∧
    cStAB.inventory_items.map (fun x => x.trayCount) = [3, 1] ∧
    (create_order cStAB cOrdReq2 cIds).2.orders = cStAB.orders := by
  exact ⟨by decide, by decide, by decide, by decide⟩

/-- Claim C2 as amended: when every line references an existing batch with
matching variety and non-negative quantity, any failure of create_order is an
insufficient-stock rejection (HTTP 400 whose detail wraps the original
ledger failure), every already-applied debit is reversed so the inventory is
exactly as before the call, and the order is not persisted.  (When a line
references a missing batch the operation still fails without persisting the
order, but — contrary to the claim — earlier debits are not reversed, as the
counterexample shows.) -/
theorem create_order_error_rolls_back (st : ServerState) (od : Order) (ids : Nat → String)
    (e : HTTPError) (st_f : ServerState)
    (hnn : AllNonNeg st.inventory_items)
    (hlines : ∀ it ∈ od.items, 0 ≤ it.quantity ∧ lineOk st.inventory_items it)
    (h : create_order st od ids = (.error e, st_f)) :
    st_f.inventory_items = st.inventory_items ∧ st_f.orders = st.orders ∧
    e.status = 400 ∧ (∃ s, e.detail = "Insufficient stock for " ++ s) := by
  unfold create_order at h
  dsimp only at h
  cases hl : create_order_loop (ids 0) ids 0 0 [] [] st od.items with
  | mk res st2 =>
    cases res with
    | error e2 =>
      rw [hl] at h
      dsimp only at h
      injection h with h1 h2
      injection h1 with he
      subst he
      subst h2
      exact create_order_loop_error (ids 0) ids od.items st [] 0 0 [] e2 st2 hnn
        (by intro p hp; simp at hp) hlines hl
    | ok pr =>
      obtain ⟨total, processed⟩ := pr
      rw [hl] at h
      dsimp only at h
      simp at h

/-- Witness for C2 (amended) at the spec's own atomicity example: A holds 3
trays, B holds 1; ordering 2 from A and 5 from B fails with the wrapped
insufficient-stock error, A is back to 3 with a debit and an equal credit in
its log, and no order is persisted. -/
theorem create_order_error_rolls_back_witness :
    (create_order cStAB cOrdReq1 cIds).2.inventory_items = cStAB.inventory_items ∧
    (create_order cStAB cOrdReq1 cIds).2.orders = cStAB.orders ∧
    ((create_order cStAB cOrdReq1 cIds).2.inventory_logs.filter
      (fun lg => lg.itemId == "A")).map (fun lg => lg.change) = [-2, 2] := by
  have T := create_order_error_rolls_back cStAB cOrdReq1 cIds
    ⟨400, "Insufficient stock for Kale (Item ID: B): " ++
      negativeDetail "B" (-4) "Order O0"⟩
    (create_order cStAB cOrdReq1 cIds).2 (by decide) (by decide) (by decide)
  exact ⟨T.1, T.2.1, by decide⟩

/-- Counterexample to claim C6 as stated: create_order performs no
validation of the line list; a request with zero lines succeeds, the order
IS persisted (with status pending and no items), and no inventory is
adjusted. -/
theorem create_order_empty_accepted :
    (create_order cStAB cOrdReqE cIds).1.isOk = true ∧
    (create_order cStAB cOrdReqE cIds).2.orders.length = 1 ∧
    cStAB.orders.length = 0 ∧
    (create_order cStAB cOrdReqE cIds).2.inventory_items = cStAB.inventory_items ∧
    (create_order cStAB cOrdReqE cIds).2.inventory_logs = cStAB.inventory_logs := by
  exact ⟨by decide, by decide, by decide, by decide, by decide⟩

/-- Claim C6 as amended: an order creation request with an empty line list is
not rejected: it succeeds, persists an order with no items, status pending
and total price 0, and performs no inventory adjustment. -/
theorem create_order_empty_spec (st : ServerState) (od : Order) (ids : Nat → String)
    (h : od.items = []) :
    create_order st od ids =
      (.ok { od with id := ids 0, items := [], total_price := some 0, status := "pending" },
       { st with orders := st.orders ++
          [{ od with id := ids 0, items := [], total_price := some 0, status := "pending" }] }) := by
  have hl : create_order_loop (ids 0) ids 0 0 [] [] st [] = (.ok (0, []), st) := rfl
  unfold create_order
  rw [h]
  dsimp only
  rw [hl]
  dsimp only
  rw [pyRound_zero]

/-- Witness for C6 (amended) at a concrete state and request. -/
theorem create_order_empty_spec_witness :
    create_order cStAB cOrdReqE cIds =
      (.ok { cOrdReqE with id := cIds 0, items := [], total_price := some 0, status := "pending" },
       { cStAB with orders := cStAB.orders ++
          [{ cOrdReqE with id := cIds 0, items := [], total_price := some 0, status := "pending" }] }) :=
  create_order_empty_spec cStAB cOrdReqE cIds rfl

/-- Claim C4: cancelling an already-cancelled order is a no-op that returns
the order unchanged with the state untouched (hence no ledger adjustment),
and cancelling any existing order twice yields the same state as cancelling
it once. -/
theorem cancel_idempotent (st : ServerState) (oid : String) (i : Nat) (o : Order)
    (hf : findWithIdx (fun x => x.id == oid) st.orders = some (i, o)) :
    (o.status = "cancelled" → update_order_status st oid "cancelled" = (.ok o, st)) ∧
    (cancel_order ((cancel_order st oid).2) oid).2 = (cancel_order st oid).2 := by
  have hget := findWithIdx_some_getElem _ _ _ _ hf
  have hpred : (o.id == oid) = true :=
    findWithIdx_some_pred (fun x => x.id == oid) st.orders i o hf
  have partA : o.status = "cancelled" → update_order_status st oid "cancelled" = (.ok o, st) := by
    intro hcan
    unfold update_order_status
    rw [if_neg (show ¬ (validOrderStatuses.contains "cancelled" = false) by decide), hf]
    dsimp only
    rw [if_neg (show ¬ ("cancelled" = "cancelled" ∧ o.status ≠ "cancelled") from
      fun hand => hand.2 hcan)]
    have ho : ({ o with status := "cancelled" } : Order) = o := by
      cases o
      simp only [Order.mk.injEq, and_true, true_and]
      simp at hcan
      exact hcan.symm
    rw [ho, set_of_getElem _ _ _ hget]
  refine ⟨partA, ?_⟩
  by_cases hcan : o.status = "cancelled"
  · have h1 : cancel_order st oid = (.ok (), st) := by
      unfold cancel_order
      rw [partA hcan]
    rw [h1]
    show (cancel_order st oid).2 = st
    rw [h1]
  · have horders : (bestEffortAdjust st (o.items.map fun it => (it.inventoryItemId, it.quantity))
        ("Order " ++ oid ++ " cancelled")).orders = st.orders := bestEffort_orders _ _ _
    set stA := bestEffortAdjust st (o.items.map fun it => (it.inventoryItemId, it.quantity))
      ("Order " ++ oid ++ " cancelled") with hstA
    set o2 : Order := { o with status := "cancelled" } with ho2
    have h1 : update_order_status st oid "cancelled" =
        (.ok o2, { stA with orders := stA.orders.set i o2 }) := by
      unfold update_order_status
      rw [if_neg (show ¬ (validOrderStatuses.contains "cancelled" = false) by decide), hf]
      dsimp only
      rw [if_pos ⟨rfl, hcan⟩]
    have hc1 : cancel_order st oid = (.ok (), { stA with orders := stA.orders.set i o2 }) := by
      unfold cancel_order
      rw [h1]
    set stB : ServerState := { stA with orders := stA.orders.set i o2 } with hstB
    have hf2 : findWithIdx (fun x => x.id == oid) stB.orders = some (i, o2) := by
      show findWithIdx (fun x => x.id == oid) (stA.orders.set i o2) = some (i, o2)
      rw [horders]
      exact findWithIdx_set _ _ _ _ _ hf hpred
    have h2 : update_order_status stB oid "cancelled" = (.ok o2, stB) := by
      unfold update_order_status
      rw [if_neg (show ¬ (validOrderStatuses.contains "cancelled" = false) by decide), hf2]
      dsimp only
      rw [if_neg (show ¬ ("cancelled" = "cancelled" ∧ o2.status ≠ "cancelled") from
        fun hand => hand.2 rfl)]
      rw [show ({ o2 with status := "cancelled" } : Order) = o2 from rfl]
      rw [set_of_getElem _ _ _ (findWithIdx_some_getElem _ _ _ _ hf2)]
    have hc2 : cancel_order stB oid = (.ok (), stB) := by
      unfold cancel_order
      rw [h2]
    rw [hc1]
    show (cancel_order stB oid).2 = stB
    rw [hc2]

/-- Witness for C4: cancelling the already-cancelled order O0 is a no-op
returning the order and the untouched state, and double cancellation of the
completed order O0 in cStOrd equals single cancellation. -/
theorem cancel_idempotent_witness :
    update_order_status cStCan "O0" "cancelled" = (.ok cCancelledOrder, cStCan) ∧
    (cancel_order ((cancel_order cStOrd "O0").2) "O0").2 = (cancel_order cStOrd "O0").2 :=
  ⟨(cancel_idempotent cStCan "O0" 0 cCancelledOrder (by decide)).1 rfl,
   (cancel_idempotent cStOrd "O0" 0 cCompletedOrder (by decide)).2⟩

/-- Counterexample to claim C5 as stated: cStOrd holds a COMPLETED order for
2 trays of batch A (count 3); updating that order's status to "cancelled"
performs a ledger adjustment tied to it — the log grows and A's count rises
to 5 — so "completed" is not terminal for ledger purposes. -/
theorem completed_to_cancelled_adjusts_ledger :
    cCompletedOrder.status = "completed" ∧
    (update_order_status cStOrd "O0" "cancelled").2.inventory_logs ≠
      cStOrd.inventory_logs ∧
    (update_order_status cStOrd "O0" "cancelled").2.inventory_items.map
      (fun x => x.trayCount) = [5] ∧
    cStOrd.inventory_items.map (fun x => x.trayCount) = [3] := by
  exact ⟨by decide, by decide, by decide, by decide⟩

/-- Claim C5 as amended: only a status update TO "cancelled" (from any
status other than "cancelled", including "completed") touches the ledger;
updates to "pending", "confirmed" or "completed" never adjust inventory or
append log entries, while cancelling a completed order credits every line's
quantity back to its batch. -/
theorem only_cancellation_adjusts_ledger (st : ServerState) (oid : String) (sv : String) :
    ((sv = "pending" ∨ sv = "confirmed" ∨ sv = "completed") →
      (update_order_status st oid sv).2.inventory_items = st.inventory_items ∧
      (update_order_status st oid sv).2.inventory_logs = st.inventory_logs) ∧
    (∀ i o, findWithIdx (fun x => x.id == oid) st.orders = some (i, o) →
      o.status = "completed" → AllNonNeg st.inventory_items →
      (∀ it ∈ o.items, 0 ≤ it.quantity) →
      (update_order_status st oid "cancelled").2.inventory_items =
        bumpAll (o.items.map fun it => (it.inventoryItemId, it.quantity))
          st.inventory_items) := by
  constructor
  · intro hsv
    have hnc : sv ≠ "cancelled" := by
      rcases hsv with h | h | h <;> subst h <;> decide
    have hval : ¬ (validOrderStatuses.contains sv = false) := by
      rcases hsv with h | h | h <;> subst h <;> decide
    unfold update_order_status
    rw [if_neg hval]
    cases hfo : findWithIdx (fun x => x.id == oid) st.orders with
    | none => exact ⟨rfl, rfl⟩
    | some r =>
      obtain ⟨i, o⟩ := r
      dsimp only
      rw [if_neg (fun hand => hnc hand.1)]
      exact ⟨rfl, rfl⟩
  · intro i o hfo hcomp hnn hq
    unfold update_order_status
    rw [if_neg (show ¬ (validOrderStatuses.contains "cancelled" = false) by decide), hfo]
    dsimp only
    rw [if_pos ⟨rfl, show o.status ≠ "cancelled" by rw [hcomp]; decide⟩]
    exact (bestEffort_spec _ st _ hnn (by
      intro p hp
      rcases List.mem_map.mp hp with ⟨it, hit, hpe⟩
      rw [← hpe]
      exact hq it hit)).1

/-- Witness for C5 (amended): updating the completed order O0 to "confirmed"
leaves inventory and logs untouched, while updating it to "cancelled"
applies exactly the per-line credits. -/
theorem only_cancellation_adjusts_ledger_witness :
    ((update_order_status cStOrd "O0" "confirmed").2.inventory_items =
      cStOrd.inventory_items ∧
     (update_order_status cStOrd "O0" "confirmed").2.inventory_logs =
      cStOrd.inventory_logs) ∧
    (update_order_status cStOrd "O0" "cancelled").2.inventory_items =
      bumpAll (cCompletedOrder.items.map fun it => (it.inventoryItemId, it.quantity))
        cStOrd.inventory_items :=
  ⟨(only_cancellation_adjusts_ledger cStOrd "O0" "confirmed").1 (Or.inr (Or.inl rfl)),
   (only_cancellation_adjusts_ledger cStOrd "O0" "cancelled").2 0 cCompletedOrder
     (by decide) rfl (by decide) (by decide)⟩

/-- Claim C8: on a cache miss, when fewer than two history points exist, or
the oracle fails, or the oracle's windowed rows are empty, the forecast has
one prediction per day of [today, today + 7*weeks), every predicted value
being the same constant (the rounded historical mean, 0 when there is no
history at all), and any later call for the same (day, horizon) key returns
the cached result unchanged, whatever the oracle or history then look like
(no recomputation). -/
theorem forecast_fallback_and_cache
    (oracle : List (Nat × Int) → Nat → Option (List ForecastPoint))
    (today weeks : Nat) (history : List (Nat × Int)) (cache : List ((Nat × Nat) × Forecast))
    (hmiss : List.lookup (today, weeks) cache = none)
    (hfb : history.length < 2 ∨ oracle history (weeks * 7) = none ∨
      (∃ rows, oracle history (weeks * 7) = some rows ∧ windowFilter today weeks rows = [])) :
    (get_demand_forecast oracle today weeks history cache).1.predictions =
      (List.range (weeks * 7)).map
        (fun i => ForecastPoint.mk (today + i) (pyRound (histAvg history) 1)) ∧
    (history = [] → pyRound (histAvg history) 1 = 0) ∧
    (get_demand_forecast oracle today weeks history cache).1.periodStart = today ∧
    (get_demand_forecast oracle today weeks history cache).1.periodEnd = today + weeks * 7 ∧
    (∀ oracle2 history2,
      get_demand_forecast oracle2 today weeks history2
          (get_demand_forecast oracle today weeks history cache).2 =
        ((get_demand_forecast oracle today weeks history cache).1,
         (get_demand_forecast oracle today weeks history cache).2)) := by
  have hpred : get_demand_forecast oracle today weeks history cache =
      (⟨today, today + weeks * 7, (List.range (weeks * 7)).map
          (fun i => ForecastPoint.mk (today + i) (pyRound (histAvg history) 1))⟩,
       cache ++ [((today, weeks), ⟨today, today + weeks * 7, (List.range (weeks * 7)).map
          (fun i => ForecastPoint.mk (today + i) (pyRound (histAvg history) 1))⟩)]) := by
    unfold get_demand_forecast
    rw [hmiss]
    dsimp only
    rcases hfb with hlen | hor | ⟨rows, hor, hflt⟩
    · rw [if_neg (by omega)]
    · by_cases hlen : 2 ≤ history.length
      · rw [if_pos hlen, hor]
      · rw [if_neg hlen]
    · by_cases hlen : 2 ≤ history.length
      · rw [if_pos hlen, hor]
        dsimp only
        rw [hflt]
        simp only [List.map_nil, List.isEmpty_nil, if_true]
      · rw [if_neg hlen]
  refine ⟨by rw [hpred], ?_, by rw [hpred], by rw [hpred], ?_⟩
  · intro h0
    subst h0
    rw [show histAvg [] = 0 from rfl, pyRound_zero]
  · intro oracle2 history2
    rw [hpred]
    dsimp only
    unfold get_demand_forecast
    rw [lookup_append_none (today, weeks) cache _ hmiss]
    simp [List.lookup]

/-- Witness for C8: with no history and a failing oracle, getForecast(4)
yields 28 days of the constant 0, and a second call on the resulting cache
— even with different history and oracle — returns the cached result. -/
theorem forecast_fallback_and_cache_witness :
    (get_demand_forecast cOracleNone 0 4 [] []).1.predictions =
      (List.range (4 * 7)).map (fun i => ForecastPoint.mk (0 + i) (pyRound (histAvg []) 1)) ∧
    pyRound (histAvg []) 1 = 0 ∧
    get_demand_forecast cOracleNone 0 4 [(0, 5)]
        (get_demand_forecast cOracleNone 0 4 [] []).2 =
      ((get_demand_forecast cOracleNone 0 4 [] []).1,
       (get_demand_forecast cOracleNone 0 4 [] []).2) := by
  have T := forecast_fallback_and_cache cOracleNone 0 4 [] [] rfl (Or.inl (by decide))
  exact ⟨T.1, T.2.1 rfl, T.2.2.2.2 cOracleNone [(0, 5)]⟩

/-- Claim C9: the non-ledger batch update endpoint never changes trayCount:
a request whose trayCount differs from the stored value fails with the batch
state untouched, and a successful update writes back exactly the stored
trayCount, only the remaining fields (variety, weight, status) changing,
with logs, orders and notifications untouched. -/
theorem update_item_preserves_trayCount (st : ServerState) (item_id : String)
    (upd : InventoryItem) (i : Nat) (x : InventoryItem)
    (hf : findWithIdx (fun it => it.id == item_id) st.inventory_items = some (i, x)) :
    (upd.trayCount ≠ x.trayCount →
      (∃ e, (update_inventory_item st item_id upd).1 = .error e) ∧
      (update_inventory_item st item_id upd).2 = st) ∧
    (∀ y st2, update_inventory_item st item_id upd = (.ok y, st2) →
      st2.inventory_items = st.inventory_items.set i
        { x with variety := upd.variety, weightKg := upd.weightKg, status := upd.status } ∧
      st2.inventory_logs = st.inventory_logs ∧
      st2.orders = st.orders ∧
      st2.notifications = st.notifications) := by
  constructor
  · intro hne
    unfold update_inventory_item
    rw [hf]
    dsimp only
    by_cases hs : allowedStatuses.contains upd.status = false
    · rw [if_pos hs]
      exact ⟨⟨_, rfl⟩, rfl⟩
    · rw [if_neg hs, if_pos hne]
      exact ⟨⟨_, rfl⟩, rfl⟩
  · intro y st2 h
    unfold update_inventory_item at h
    rw [hf] at h
    dsimp only at h
    by_cases hs : allowedStatuses.contains upd.status = false
    · rw [if_pos hs] at h
      simp at h
    · rw [if_neg hs] at h
      by_cases hne : upd.trayCount ≠ x.trayCount
      · rw [if_pos hne] at h
        simp at h
      · rw [if_neg hne] at h
        push_neg at hne
        injection h with h1 h2
        subst h2
        refine ⟨?_, rfl, rfl, rfl⟩
        show st.inventory_items.set i { x with variety := upd.variety, trayCount := upd.trayCount, weightKg := upd.weightKg, status := upd.status } = _
        rw [hne]

/-- Witness for C9: updating batch A (3 trays) with a request carrying
trayCount 4 fails leaving the state unchanged; with trayCount 3 it succeeds
and only variety, weight and status change. -/
theorem update_item_preserves_trayCount_witness :
    ((∃ e, (update_inventory_item cStAB "A" cUpdItemBad).1 = .error e) ∧
      (update_inventory_item cStAB "A" cUpdItemBad).2 = cStAB) ∧
    ((update_inventory_item cStAB "A" cUpdItem).2.inventory_items =
      cStAB.inventory_items.set 0 ⟨"A", "Radish", 3, some 1, "sold"⟩ ∧
     (update_inventory_item cStAB "A" cUpdItem).2.inventory_logs =
      cStAB.inventory_logs) := by
  have T1 := update_item_preserves_trayCount cStAB "A" cUpdItemBad 0
    ⟨"A", "Pea", 3, none, "in-storage"⟩ (by decide)
  have T2 := update_item_preserves_trayCount cStAB "A" cUpdItem 0
    ⟨"A", "Pea", 3, none, "in-storage"⟩ (by decide)
  have h2 := T2.2 ⟨"A", "Radish", 3, some 1, "sold"⟩
    (update_inventory_item cStAB "A" cUpdItem).2 (by decide)
  exact ⟨T1.1 (by decide), h2.1, h2.2.1⟩

/-- Counterexample to claim C10 as stated: batch B1 was created (its log is
present) and then removed via the delete endpoint; listLogs afterwards fails
with NotFound even though the batch existed and its log entries are still
retained in the log store. -/
theorem logs_unavailable_after_delete :
    get_inventory_item_logs (delete_inventory_item cStDel "B1").2 "B1" =
      .error ⟨404, "Inventory item not found"⟩ ∧
    (delete_inventory_item cStDel "B1").2.inventory_logs.filter
      (fun lg => lg.itemId == "B1") ≠ [] := by
  exact ⟨by decide, by decide⟩

/-- Claim C10 as amended: listLogs fails with NotFound exactly when no batch
with that id CURRENTLY exists — including batches that once existed and were
removed; removal itself succeeds, logging a final adjustment to zero, and the
log store keeps all entries (append-only), they are merely unreachable
through listLogs after removal. -/
theorem listLogs_requires_current_item (st : ServerState) (item_id : String) (i : Nat)
    (x : InventoryItem)
    (hf : findWithIdx (fun it => it.id == item_id) st.inventory_items = some (i, x)) :
    (∀ st2 : ServerState, (get_inventory_item_logs st2 item_id =
        .error ⟨404, "Inventory item not found"⟩) ↔
      st2.inventory_items.any (fun it => it.id == item_id) = false) ∧
    (delete_inventory_item st item_id).1 = .ok () ∧
    (delete_inventory_item st item_id).2.inventory_logs =
      st.inventory_logs ++ [⟨item_id, -x.trayCount, "Item deleted", "system"⟩] := by
  have hdel : delete_inventory_item st item_id =
      (.ok (), { st with
        inventory_items := (bump st.inventory_items i (-x.trayCount)).eraseIdx i,
        inventory_logs := st.inventory_logs ++
          [⟨item_id, -x.trayCount, "Item deleted", "system"⟩],
        notifications := st.notifications ++
          (if -x.trayCount < 0 ∧ x.trayCount + -x.trayCount < st.low_stock_threshold
           then [⟨lowStockMsg x.variety (x.trayCount + -x.trayCount), "alert"⟩] else []) }) := by
    unfold delete_inventory_item
    rw [hf]
    dsimp only
    rw [adjust_of_ok st item_id (-x.trayCount) "Item deleted" "system" i x hf (by omega)]
  constructor
  · intro st2
    unfold get_inventory_item_logs
    by_cases hany : st2.inventory_items.any (fun it => it.id == item_id) = true
    · rw [if_pos hany]
      constructor
      · intro h; exact absurd h (by simp)
      · intro h; rw [hany] at h; exact absurd h (by simp)
    · rw [if_neg hany]
      constructor
      · intro _
        cases hb : st2.inventory_items.any (fun it => it.id == item_id) with
        | false => rfl
        | true => exact absurd hb hany
      · intro _; rfl
  · rw [hdel]
    exact ⟨rfl, rfl⟩

/-- Witness for C10 (amended) at the concrete removal scenario. -/
theorem listLogs_requires_current_item_witness :
    ((get_inventory_item_logs cStDel "B1" = .error ⟨404, "Inventory item not found"⟩) ↔
      cStDel.inventory_items.any (fun it => it.id == "B1") = false) ∧
    (delete_inventory_item cStDel "B1").1 = .ok () ∧
    (delete_inventory_item cStDel "B1").2.inventory_logs =
      cStDel.inventory_logs ++ [⟨"B1", -2, "Item deleted", "system"⟩] := by
  have T := listLogs_requires_current_item cStDel "B1" 0
    ⟨"B1", "Sunflower", 2, none, "in-storage"⟩ (by decide)
  exact ⟨T.1 cStDel, T.2.1, T.2.2⟩

end Microgreen
